import Mathlib

/-!
# Verification of the voice-notes continuous recording pipeline

A shallow embedding of the core logic of the `app-notas` browser application
(`index.tsx`, continuous-recording variant): the WAV re-encoder
(`convertToWav`), the title derivation (`updateNoteTitle`), and the
dual-recorder / processing-queue session state machine
(`startContinuousRecording`, `setupRecorderEvents`, `switchRecorders`,
`processNextSegment`, `getSegmentTranscription`, `getPolishedNote`,
`finalizeContinuousRecording`, `stopContinuousRecording`).

Conventions of the embedding:
* Audio samples are rationals.  The source reads `Float32Array` samples and
  multiplies them by 32768 or 32767 in double precision; both products are
  exact for every float32 input (at most 24 + 16 mantissa bits), so exact
  rational arithmetic is bit-faithful here.
* `DataView.setUint16/32` store values modulo 2^16 / 2^32; the little-endian
  byte encoders below wrap the same way by construction.
* `DataView.setInt16` truncates toward zero and stores modulo 2^16
  (two's complement); `ratTrunc` is that truncation on rationals.
* The single-threaded JavaScript event loop is modelled by a step function
  over explicit events; each `async` function is split at its `await` points
  into the synchronous blocks that the event loop actually runs atomically.
-/

namespace VoiceNotes

/-! ## WAV encoder (`convertToWav`) -/

/-- Truncation of a rational toward zero, as JavaScript's ToInt16 conversion
performs on the value passed to `DataView.setInt16`. -/
def ratTrunc (q : ℚ) : ℤ :=
  if q < 0 then -((q.num.natAbs / q.den : ℕ) : ℤ) else ((q.num.natAbs / q.den : ℕ) : ℤ)

/-- Clamping `Math.max(-1, Math.min(1, sample))` from `convertToWav`. -/
def clampSample (s : ℚ) : ℚ := max (-1) (min 1 s)

/-- Quantization `sample < 0 ? sample * 0x8000 : sample * 0x7FFF`, applied to the clamped
sample, truncated as by `setInt16`. -/
def quantizeSample (s : ℚ) : ℤ :=
  let c := clampSample s
  ratTrunc (if c < 0 then c * 32768 else c * 32767)

/-- Little-endian bytes of `setUint16` (wraps modulo 2^16 by construction). -/
def u16le (n : ℕ) : List ℕ := [n % 256, n / 256 % 256]

/-- Little-endian bytes of `setUint32` (wraps modulo 2^32 by construction). -/
def u32le (n : ℕ) : List ℕ :=
  [n % 256, n / 256 % 256, n / 65536 % 256, n / 16777216 % 256]

/-- Little-endian bytes of `setInt16`: two's complement storage modulo 2^16. -/
def i16le (i : ℤ) : List ℕ := u16le (i % 65536).toNat

/-- The `writeString` helper: one byte per character (`charCodeAt`), ASCII here. -/
def strBytes (s : String) : List ℕ := s.toList.map Char.toNat

/-- Interleaving `interleaved[i * numberOfChannels + channel] = channelData[channel][i]`:
frame-major interleaving of the per-channel sample arrays. -/
def interleave (channelData : List (List ℚ)) (numSamples : ℕ) : List ℚ :=
  (List.range numSamples).flatMap fun i => channelData.map fun ch => ch.getD i 0

/-- The byte stream produced by `convertToWav` from a decoded `AudioBuffer`
with the given sample rate, per-channel frame count `numSamples`, and
per-channel sample data. -/
def convertToWav (sampleRate numSamples : ℕ) (channelData : List (List ℚ)) : List ℕ :=
  let numberOfChannels := channelData.length
  let interleaved := interleave channelData numSamples
  let dataBytes := interleaved.length * 2
  strBytes "RIFF" ++ u32le (36 + dataBytes) ++ strBytes "WAVE" ++
    strBytes "fmt " ++ u32le 16 ++ u16le 1 ++ u16le numberOfChannels ++
    u32le sampleRate ++ u32le (sampleRate * numberOfChannels * 2) ++
    u16le (numberOfChannels * 2) ++ u16le 16 ++
    strBytes "data" ++ u32le dataBytes ++
    interleaved.flatMap fun s => i16le (quantizeSample s)

/-- The 44-byte header as the specification words it: RIFF chunk size
`36 + dataBytes`, format tag 1 (PCM), channel count, sample rate, byte rate
`sampleRate * channels * 2`, block align `channels * 2`, 16 bits per sample,
and data chunk size `dataBytes`, all little-endian. -/
def wavHeaderSpec (channels sampleRate dataBytes : ℕ) : List ℕ :=
  strBytes "RIFF" ++ u32le (36 + dataBytes) ++ strBytes "WAVE" ++
    strBytes "fmt " ++ u32le 16 ++ u16le 1 ++ u16le channels ++
    u32le sampleRate ++ u32le (sampleRate * channels * 2) ++
    u16le (channels * 2) ++ u16le 16 ++ strBytes "data" ++ u32le dataBytes

/-! ## String helpers and title derivation (`updateNoteTitle`) -/

/-- JavaScript `String.prototype.trim()`, modelled on the character list. -/
def trimCharList (l : List Char) : List Char :=
  ((l.dropWhile Char.isWhitespace).reverse.dropWhile Char.isWhitespace).reverse

/-- JavaScript `text.trim()`. -/
def jsTrim (s : String) : String := ⟨trimCharList s.data⟩

/-- JavaScript `text.split(c)` on a single character. -/
def splitOnChar (c : Char) : List Char → List (List Char)
  | [] => [[]]
  | x :: xs =>
    match splitOnChar c xs with
    | [] => [[]]
    | h :: t => if x = c then [] :: h :: t else (x :: h) :: t

/-- Heading stripping `line.replace(/^#+\s+/, '')`: if the line starts with a run of `#`
followed by at least one whitespace character, drop both runs; otherwise
leave the line unchanged. -/
def stripHeadingMarker (l : List Char) : List Char :=
  let t := l.dropWhile (fun ch => ch = '#')
  let u := t.dropWhile Char.isWhitespace
  if t.length < l.length ∧ u.length < t.length then u else l

/-- The character class of `/^[\*_\`#\->\s\[\]\(.\d)]+/` in `updateNoteTitle`. -/
def titleJunkChar (ch : Char) : Bool :=
  ch == '*' || ch == '_' || ch == '\x60' || ch == '#' || ch == '-' || ch == '>' ||
    ch == '[' || ch == ']' || ch == '(' || ch == '.' || ch == ')' ||
    ch.isDigit || ch.isWhitespace

/-- The character class of `/[\*_\`#]+$/` in `updateNoteTitle`. -/
def trailJunkChar (ch : Char) : Bool :=
  ch == '*' || ch == '_' || ch == '\x60' || ch == '#'

/-- First loop of `updateNoteTitle`: first line starting with `'#'` whose
stripped, trimmed remainder is non-empty. -/
def findHeadingTitle : List (List Char) → Option (List Char)
  | [] => none
  | l :: ls =>
    if l.head? = some '#' then
      let t := trimCharList (stripHeadingMarker l)
      if t ≠ [] then some t else findHeadingTitle ls
    else findHeadingTitle ls

/-- Second loop of `updateNoteTitle`: first non-empty line whose text, after
stripping leading punctuation/list markers and trailing emphasis marks,
exceeds 3 characters; truncated to 60 characters with an ellipsis. -/
def findFallbackTitle : List (List Char) → Option (List Char)
  | [] => none
  | l :: ls =>
    if l ≠ [] then
      let pt0 := l.dropWhile titleJunkChar
      let pt := trimCharList (pt0.reverse.dropWhile trailJunkChar).reverse
      if 3 < pt.length then
        some (pt.take 60 ++ (if 60 < pt.length then ['.', '.', '.'] else []))
      else findFallbackTitle ls
    else findFallbackTitle ls

/-- The whole of `updateNoteTitle`: the title written to the editor-title element, or
`none` when the placeholder is shown instead. -/
def updateNoteTitle (polishedText : String) : Option String :=
  let lines := (splitOnChar '\n' polishedText.data).map trimCharList
  match findHeadingTitle lines with
  | some t => some ⟨t⟩
  | none =>
    match findFallbackTitle lines with
    | some t => some ⟨t⟩
    | none => none

/-! ## Session state machine

The continuous-recording session: two `MediaRecorder` handles, the segment
timer, the FIFO processing queue with its `isProcessingSegment` guard, and
the transcript/note accumulator.  JavaScript is single threaded: each
synchronous block of the source runs atomically, and each `await` is a
suspension point at which other events may run.  `AppState.pendingStops`
holds recorder `onstop` callbacks that have been triggered (by
`MediaRecorder.stop()`, which moves the recorder to the `inactive` state
immediately) but not yet delivered by the event loop.
`AppState.inflightSegments` records the segments that have been dequeued by
`processNextSegment` and whose asynchronous processing has not yet
completed; it is observational state used to express the single-flight
property. -/

inductive RecId
  | primary
  | secondary
  deriving DecidableEq, Repr

def RecId.other : RecId → RecId
  | .primary => .secondary
  | .secondary => .primary

/-- States of `MediaRecorder.state` (the `paused` state is never used by this app). -/
inductive RecState
  | inactive
  | recording
  deriving DecidableEq, Repr

structure AudioSegment where
  blobSize : ℕ
  startTime : ℤ
  endTime : ℤ
  segmentNumber : ℕ
  deriving DecidableEq, Repr

/-- Environment outcome of the asynchronous processing of one segment
(`processAudioSegment`, `getSegmentTranscription`, `getPolishedNote`):
either some step threw (decode error, base64 failure or transcription
request failure), or the transcription returned `text` (empty meaning a
falsy `response.text`) and the follow-up refinement returned `refined`
(`none` for a thrown refinement request, `some ""` for a falsy one). -/
inductive ProcOutcome
  | procError
  | transcribed (text : String) (refined : Option String)
  deriving Repr

structure AppState where
  isRecording : Bool
  isContinuousMode : Bool
  activeRecorder : RecId
  primaryState : RecState
  secondaryState : RecState
  primaryAudioChunks : List ℕ
  secondaryAudioChunks : List ℕ
  pendingStops : List RecId
  segmentStartTime : ℤ
  segmentCount : ℕ
  openingTags : String
  closingTags : String
  accumulatedTranscription : String
  accumulatedPolishedNote : String
  processingQueue : List AudioSegment
  isProcessingSegment : Bool
  inflightSegments : List AudioSegment
  editorTitle : Option String
  enqueuedLog : List AudioSegment
  refinementPromptLog : List String

def recState (s : AppState) : RecId → RecState
  | .primary => s.primaryState
  | .secondary => s.secondaryState

def chunksOf (s : AppState) : RecId → List ℕ
  | .primary => s.primaryAudioChunks
  | .secondary => s.secondaryAudioChunks

def setRecState (r : RecId) (st : RecState) (s : AppState) : AppState :=
  match r with
  | .primary => { s with primaryState := st }
  | .secondary => { s with secondaryState := st }

def setChunks (r : RecId) (c : List ℕ) (s : AppState) : AppState :=
  match r with
  | .primary => { s with primaryAudioChunks := c }
  | .secondary => { s with secondaryAudioChunks := c }

/-- The field initializers of `VoiceNotesApp` (fresh page load). -/
def initApp : AppState where
  isRecording := false
  isContinuousMode := false
  activeRecorder := .primary
  primaryState := .inactive
  secondaryState := .inactive
  primaryAudioChunks := []
  secondaryAudioChunks := []
  pendingStops := []
  segmentStartTime := 0
  segmentCount := 0
  openingTags := ""
  closingTags := ""
  accumulatedTranscription := ""
  accumulatedPolishedNote := ""
  processingQueue := []
  isProcessingSegment := false
  inflightSegments := []
  editorTitle := none
  enqueuedLog := []
  refinementPromptLog := []

/-- The constant `SEGMENT_DURATION_MS = 2 * 60 * 1000`. -/
def SEGMENT_DURATION_MS : ℕ := 2 * 60 * 1000

/-- Model of `startContinuousRecording` (success path) followed by
`startDualRecording`: reset the per-session fields, arm both recorders,
record on the primary slot, and raise `isRecording`.  `tags` are the
opening/closing source tags chosen by `setupAudioTags` from the available
streams. -/
def startContinuousRecording (tags : String × String) (now : ℤ) (s : AppState) : AppState :=
  { s with
    isContinuousMode := true
    segmentCount := 1
    accumulatedTranscription := ""
    accumulatedPolishedNote := ""
    processingQueue := []
    isProcessingSegment := false
    openingTags := tags.1
    closingTags := tags.2
    primaryAudioChunks := []
    secondaryAudioChunks := []
    primaryState := .recording
    secondaryState := .inactive
    activeRecorder := .primary
    segmentStartTime := now
    isRecording := true }

/-- Synchronous prefix of `processNextSegment`, up to the `await` of
`processAudioSegment`: the guard check, raising `isProcessingSegment`, and
shifting the head of the queue. -/
def processNextSegmentStart (s : AppState) : AppState :=
  match s.processingQueue with
  | [] => s
  | seg :: rest =>
    if s.isProcessingSegment then s
    else
      { s with
        isProcessingSegment := true
        processingQueue := rest
        inflightSegments := s.inflightSegments ++ [seg] }

/-- The `ondataavailable` handler: chunks with `size > 0` are appended to the active
recorder's chunk list. -/
def handleDataAvailable (r : RecId) (size : ℕ) (s : AppState) : AppState :=
  if 0 < size then setChunks r (chunksOf s r ++ [size]) s else s

/-- The `onstop` handler for recorder `r`: if the chunk list is non-empty, build the
blob, emit an `AudioSegment` numbered `segmentCount + 1`, push it on the
processing queue, call `processNextSegment` (its synchronous prefix), and
clear the chunk list; otherwise do nothing. -/
def handleRecorderStop (r : RecId) (now : ℤ) (s : AppState) : AppState :=
  let chunks := chunksOf s r
  if chunks ≠ [] then
    let seg : AudioSegment :=
      { blobSize := chunks.sum
        startTime := s.segmentStartTime
        endTime := now
        segmentNumber := s.segmentCount + 1 }
    let s1 := { s with
      processingQueue := s.processingQueue ++ [seg]
      enqueuedLog := s.enqueuedLog ++ [seg] }
    setChunks r [] (processNextSegmentStart s1)
  else s

/-- Model of `MediaRecorder.start()` as called by `switchRecorders`: an inactive
recorder starts recording; calling it on a recorder that is already
recording throws, which the surrounding `try/catch` swallows. -/
def recorderStart (r : RecId) (s : AppState) : AppState :=
  match recState s r with
  | .inactive => setRecState r .recording s
  | .recording => s

/-- Model of `switchRecorders`, as run by the segment-interval callback (both the
callback and the function itself check `isContinuousMode && isRecording`):
stop the active recorder (scheduling its `onstop`) and start the other one
in the same synchronous step. -/
def switchRecorders (now : ℤ) (s : AppState) : AppState :=
  if s.isContinuousMode ∧ s.isRecording then
    let cur := s.activeRecorder
    let s1 :=
      if recState s cur = .recording then
        { setRecState cur .inactive s with pendingStops := s.pendingStops ++ [cur] }
      else s
    let s2 := { s1 with activeRecorder := cur.other, segmentStartTime := now }
    recorderStart cur.other s2
  else s

/-- Model of `addAudioTags`. -/
def addAudioTags (opening closing transcription : String) : String :=
  if opening = "" ∧ closing = "" then transcription
  else opening ++ transcription ++ " " ++ closing

/-- The fixed refinement instruction of `getPolishedNote`, up to the point
where the accumulated raw transcription is interpolated. -/
def polishPromptPre : String :=
  "Pegue nesta transcrição bruta e crie uma nota bem formatada e melhorada.\n                    Remova palavras de preenchimento (hum, ah, tipo), repetições e falsos começos.\n                    Formate corretamente quaisquer listas ou marcadores. Use formatação markdown para títulos, listas, etc.\n                    Mantenha todo o conteúdo e significado original.\n                    Esta é uma transcrição de múltiplos segmentos de uma reunião contínua.\n\n                    Transcrição bruta:\n                    "

/-- The `=== SEGMENTO n ===` header of `getSegmentTranscription`. -/
def segmentHeader (n : ℕ) : String := "\n\n=== SEGMENTO " ++ toString n ++ " ===\n"

/-- Model of `getPolishedNote`, with the environment's refinement response `refined`:
guard on the raw-transcription display having content, log the prompt built
over the entire accumulated transcription, and on a truthy response replace
the polished note; when `segmentCount` is exactly 1, derive the title. -/
def getPolishedNote (refined : Option String) (s : AppState) : AppState :=
  if jsTrim s.accumulatedTranscription = "" then s
  else
    let prompt := polishPromptPre ++ s.accumulatedTranscription
    let s1 := { s with refinementPromptLog := s.refinementPromptLog ++ [prompt] }
    match refined with
    | none => s1
    | some polishedText =>
      if polishedText ≠ "" then
        let s2 := { s1 with accumulatedPolishedNote := polishedText }
        if s2.segmentCount = 1 then { s2 with editorTitle := updateNoteTitle polishedText }
        else s2
      else s1

/-- The state effect of the asynchronous part of processing `seg`
(`processAudioSegment` + `getSegmentTranscription`), given the environment
outcome: an empty blob or any failure changes nothing; a truthy
transcription bumps `segmentCount`, appends one segment-delimited block to
the accumulated raw transcription, and runs `getPolishedNote`. -/
def applyCompletion (seg : AudioSegment) (out : ProcOutcome) (s : AppState) : AppState :=
  if seg.blobSize = 0 then s
  else
    match out with
    | .procError => s
    | .transcribed text refined =>
      if text ≠ "" then
        let s1 := { s with segmentCount := max s.segmentCount seg.segmentNumber }
        let block := segmentHeader seg.segmentNumber ++
          addAudioTags s1.openingTags s1.closingTags (jsTrim text)
        let s2 := { s1 with accumulatedTranscription := s1.accumulatedTranscription ++ block }
        getPolishedNote refined s2
      else s

/-- Completion of the in-flight segment: `applyCompletion` followed by the
`finally` block of `processNextSegment`, which releases the single-flight
guard (a further drain call, if the queue is non-empty, is scheduled via
`setTimeout` and modelled as a separate `drainTick` event). -/
def completeInflight (out : ProcOutcome) (s : AppState) : AppState :=
  match s.inflightSegments with
  | [] => s
  | seg :: rest =>
    let s1 := applyCompletion seg out s
    { s1 with isProcessingSegment := false, inflightSegments := rest }

/-- Model of `stopContinuousRecording` up to its first suspension: drop
`isContinuousMode` (and cancel the segment timer), and — when recording —
the synchronous prefix of `finalizeContinuousRecording`, which stops the
active recorder so that its final segment flushes. -/
def userStopBegin (s : AppState) : AppState :=
  let s1 := { s with isContinuousMode := false }
  if s1.isRecording then
    let a := s1.activeRecorder
    if recState s1 a = .recording then
      { setRecState a .inactive s1 with pendingStops := s1.pendingStops ++ [a] }
    else s1
  else s1

/-- Model of `stopDualRecording`: stop whichever recorders are still recording and
drop `isRecording`. -/
def stopDualRecording (s : AppState) : AppState :=
  let s1 :=
    if s.primaryState = .recording then
      { s with primaryState := .inactive, pendingStops := s.pendingStops ++ [RecId.primary] }
    else s
  let s2 :=
    if s1.secondaryState = .recording then
      { s1 with secondaryState := .inactive, pendingStops := s1.pendingStops ++ [RecId.secondary] }
    else s1
  { s2 with isRecording := false }

/-- The events the single-threaded event loop can deliver during a
continuous-recording session. -/
inductive Event
  | timerFire (now : ℤ)
  | dataAvailable (r : RecId) (size : ℕ)
  | recorderStopped (r : RecId) (now : ℤ)
  | drainTick
  | completion (out : ProcOutcome)
  | userStop
  | teardown

/-- One atomic step of the event loop.  An `onstop` callback can only be
delivered for a recorder whose stop was requested. -/
def step (s : AppState) (e : Event) : AppState :=
  match e with
  | .timerFire now => switchRecorders now s
  | .dataAvailable r size => handleDataAvailable r size s
  | .recorderStopped r now =>
    if r ∈ s.pendingStops then
      handleRecorderStop r now { s with pendingStops := s.pendingStops.erase r }
    else s
  | .drainTick => processNextSegmentStart s
  | .completion out => completeInflight out s
  | .userStop => userStopBegin s
  | .teardown => stopDualRecording s

def run (s : AppState) (evs : List Event) : AppState := evs.foldl step s

/-- The state in which a fresh session starts. -/
def startState (tags : String × String) (now : ℤ) : AppState :=
  startContinuousRecording tags now initApp

/-- The wait loop of `finalizeContinuousRecording`:
`while ((queue.length > 0 || isProcessing) && attempts < 50) { sleep 200; attempts++ }`,
with `busy k` telling whether the queue is non-empty or a segment is being
processed at the `k`-th check.  Returns the final value of `attempts`. -/
def finalizeWaitFrom (busy : ℕ → Bool) (attempts : ℕ) : ℕ :=
  if h : busy attempts ∧ attempts < 50 then finalizeWaitFrom busy (attempts + 1)
  else attempts
termination_by 50 - attempts
decreasing_by omega

def finalizeWaitAttempts (busy : ℕ → Bool) : ℕ := finalizeWaitFrom busy 0

/-! ## Invariant predicates and session-run descriptions used by the theorems -/

/-- The single-flight invariant: at most one segment has been dequeued and
not yet completed, and `isProcessingSegment` is raised exactly while such a
segment exists. -/
def SingleFlight (s : AppState) : Prop :=
  s.inflightSegments.length ≤ 1 ∧
    (s.isProcessingSegment = true ↔ s.inflightSegments ≠ [])

/-- The recorder-slot invariant: the two recorders are never both capturing,
and while the session is logically on (the user has neither stopped nor is
the recording torn down: `isRecording ∧ isContinuousMode`) the active slot
is capturing and the other slot is idle. -/
def RecorderInv (s : AppState) : Prop :=
  ¬(s.primaryState = RecState.recording ∧ s.secondaryState = RecState.recording) ∧
    (s.isRecording = true → s.isContinuousMode = true →
      recState s s.activeRecorder = RecState.recording ∧
        recState s s.activeRecorder.other = RecState.inactive)

/-- The live-session state shape between rotations: one recorder capturing,
no pending callbacks, empty queue, idle processor. -/
def mkLiveState (tags : String × String) (r : RecId) (count : ℕ)
    (acc pol : String) (title : Option String)
    (log : List AudioSegment) (plog : List String) (t : ℤ) : AppState where
  isRecording := true
  isContinuousMode := true
  activeRecorder := r
  primaryState := if r = .primary then .recording else .inactive
  secondaryState := if r = .secondary then .recording else .inactive
  primaryAudioChunks := []
  secondaryAudioChunks := []
  pendingStops := []
  segmentStartTime := t
  segmentCount := count
  openingTags := tags.1
  closingTags := tags.2
  accumulatedTranscription := acc
  accumulatedPolishedNote := pol
  processingQueue := []
  isProcessingSegment := false
  inflightSegments := []
  editorTitle := title
  enqueuedLog := log
  refinementPromptLog := plog

/-- The recorder that is capturing after `n` rotations. -/
def activeAfter : ℕ → RecId
  | 0 => .primary
  | n + 1 => (activeAfter n).other

/-- One rotation: the timer fires, the stopping recorder flushes its data,
its `onstop` runs, and the segment's processing completes. -/
def rotationEvents (r : RecId) (t1 t2 : ℤ) (sz : ℕ) (out : ProcOutcome) : List Event :=
  [.timerFire t1, .dataAvailable r sz, .recorderStopped r t2, .completion out]

/-- The accumulated raw transcription after `k` successful rotations
(segments numbered 2, …, k + 1). -/
def accAfterSeg (tags : String × String) (text : String) : ℕ → String
  | 0 => ""
  | k + 1 => accAfterSeg tags text k ++
      (segmentHeader (k + 2) ++ addAudioTags tags.1 tags.2 (jsTrim text))

/-- The segments enqueued after `k` rotations. -/
def segLogAfter (sz : ℕ) : ℕ → List AudioSegment
  | 0 => []
  | k + 1 => segLogAfter sz k ++ [⟨sz, 0, 0, k + 2⟩]

/-- The refinement prompts issued after `k` rotations. -/
def promptsAfter (tags : String × String) (text : String) : ℕ → List String
  | 0 => []
  | k + 1 => promptsAfter tags text k ++ [polishPromptPre ++ accAfterSeg tags text (k + 1)]

def sessionRotations (n sz : ℕ) (text : String) : List Event :=
  (List.range n).flatMap fun i => rotationEvents (activeAfter i) 0 0 sz (.transcribed text none)

/-- The user-initiated stop: `stopContinuousRecording` begins, the active
recorder flushes its final data, its `onstop` runs, the final segment's
processing completes, and `stopDualRecording` tears down. -/
def finalEvents (r : RecId) (sz : ℕ) (text : String) : List Event :=
  [.userStop, .dataAvailable r sz, .recorderStopped r 0,
    .completion (.transcribed text none), .teardown]

/-- A full clean session: `n` rotations then the user stop. -/
def sessionEvents (n sz : ℕ) (text : String) : List Event :=
  sessionRotations n sz text ++ finalEvents (activeAfter n) sz text

/-- A session with one timer interval in which the first segment's
transcription has not completed by the time the user stops: both flushes
are non-empty, yet both enqueued segments carry `segmentNumber` 2. -/
def delayedSessionEvents : List Event :=
  [.timerFire 0, .dataAvailable .primary 1, .recorderStopped .primary 0,
    .userStop, .dataAvailable .secondary 1, .recorderStopped .secondary 0]

/-- One drain pass per environment outcome: the scheduled
`processNextSegment` call followed by the completion of the dequeued
segment's processing. -/
def drainEvents (outs : List ProcOutcome) : List Event :=
  outs.flatMap fun o => [.drainTick, .completion o]

/-- The blocks the successfully transcribed segments contribute, in queue
order; failed or empty segments contribute nothing. -/
def successBlocks (opening closing : String) : List (AudioSegment × ProcOutcome) → String
  | [] => ""
  | (seg, out) :: rest =>
    (match out with
     | .procError => ""
     | .transcribed text _ =>
       if seg.blobSize ≠ 0 ∧ text ≠ "" then
         segmentHeader seg.segmentNumber ++ addAudioTags opening closing (jsTrim text)
       else "") ++ successBlocks opening closing rest

/-! ## Sanity examples -/

example : quantizeSample (1/2) = 16383 := by with_unfolding_all decide

example : quantizeSample (-1/2) = -16384 := by with_unfolding_all decide

example : quantizeSample 2 = 32767 := by with_unfolding_all decide

example : quantizeSample (-2) = -32768 := by with_unfolding_all decide

example : i16le (-16384) = [0, 192] := by decide

example : updateNoteTitle "# Weekly Sync\n\nDiscussed budget." = some "Weekly Sync" := by
  decide

example : updateNoteTitle "- Review action items and owners"
    = some "Review action items and owners" := by decide

/-! ## Helper lemmas -/

theorem finalizeWaitFrom_le (busy : ℕ → Bool) :
    ∀ n a, 50 ≤ a + n → a ≤ 50 → finalizeWaitFrom busy a ≤ 50 := by
  intro n
  induction n with
  | zero =>
    intro a h1 h2
    rw [finalizeWaitFrom]
    split
    · next hb => exact absurd hb.2 (by omega)
    · exact h2
  | succ n ih =>
    intro a h1 h2
    rw [finalizeWaitFrom]
    split
    · next hb => exact ih (a + 1) (by omega) (by omega)
    · exact h2

theorem trimCharList_ne_nil {l : List Char} {c : Char}
    (hc : c ∈ l) (hw : c.isWhitespace = false) : trimCharList l ≠ [] := by
  intro h
  unfold trimCharList at h
  rw [List.reverse_eq_nil_iff, List.dropWhile_eq_nil_iff] at h
  have hmem : c ∈ l.dropWhile Char.isWhitespace := by
    rcases (List.mem_append.mp
        (by rw [List.takeWhile_append_dropWhile (l := l)]; exact hc :
          c ∈ l.takeWhile Char.isWhitespace ++ l.dropWhile Char.isWhitespace)) with h1 | h1
    · exact absurd (List.mem_takeWhile_imp h1) (by simp [hw])
    · exact h1
  exact absurd (h c (by simpa using hmem)) (by simp [hw])

theorem jsTrim_append_ne_empty {a : String} {b : String} {c : Char}
    (hc : c ∈ b.data) (hw : c.isWhitespace = false) : jsTrim (a ++ b) ≠ "" := by
  intro h
  have : trimCharList (a ++ b).data = [] := congrArg String.data h
  exact trimCharList_ne_nil (c := c) (by rw [String.data_append]; exact List.mem_append_right _ hc) hw this

/-! ## C10: the finalize wait loop is bounded -/

/-- C10: the wait-for-queue-drain loop of `finalizeContinuousRecording` runs
at most 50 iterations (50 sleeps of 200 ms ≈ 10 s) no matter how the
busy condition evolves, and `stopDualRecording` then tears the session down
(clears `isRecording`) regardless of — and without touching — the remaining
processing queue and the single-flight guard. -/
theorem finalize_wait_bounded :
    (∀ busy : ℕ → Bool, finalizeWaitAttempts busy ≤ 50) ∧
    (∀ s : AppState,
      (stopDualRecording s).isRecording = false ∧
      (stopDualRecording s).processingQueue = s.processingQueue ∧
      (stopDualRecording s).isProcessingSegment = s.isProcessingSegment) := by
  constructor
  · intro busy
    exact finalizeWaitFrom_le busy 50 0 (by omega) (by omega)
  · intro s
    by_cases h1 : s.primaryState = RecState.recording <;>
      by_cases h2 : s.secondaryState = RecState.recording <;>
        simp [stopDualRecording, h1, h2]

/-! ## C7: a stop with zero captured bytes emits nothing -/

/-- C7: delivering the `onstop` of a recorder whose chunk list is empty
(zero bytes captured) leaves the state unchanged apart from consuming the
pending callback: no `AudioSegment` is built, the processing queue and the
segment log are untouched, and `processNextSegment` is not reached. -/
theorem empty_capture_dropped (s : AppState) (r : RecId) (t : ℤ)
    (h : chunksOf s r = []) :
    step s (.recorderStopped r t) =
      if r ∈ s.pendingStops then { s with pendingStops := s.pendingStops.erase r } else s := by
  simp only [step]
  split
  · next hm =>
    have h' : chunksOf { s with pendingStops := s.pendingStops.erase r } r = [] := by
      cases r <;> simpa [chunksOf] using h
    rw [handleRecorderStop, if_neg (by simpa using h')]
  · rfl

/-- Witness for C7 at a concrete state: in a fresh session no chunks have
been captured, and delivering a (spurious) stop changes nothing. -/
theorem empty_capture_dropped_witness :
    chunksOf (startState ("", "") 0) .primary = [] ∧
    step (startState ("", "") 0) (.recorderStopped .primary 0) = startState ("", "") 0 := by
  refine ⟨rfl, ?_⟩
  have h := empty_capture_dropped (startState ("", "") 0) .primary 0 rfl
  simpa [startState, startContinuousRecording, initApp] using h

/-! ## C2: the processing queue is single-flight -/

theorem singleFlight_processStart {s : AppState} (h : SingleFlight s) :
    SingleFlight (processNextSegmentStart s) := by
  obtain ⟨h1, h2⟩ := h
  unfold processNextSegmentStart
  split
  · exact ⟨h1, h2⟩
  · split
    · exact ⟨h1, h2⟩
    · next hg =>
      have hnil : s.inflightSegments = [] := by
        by_contra hne
        exact hg (h2.mpr hne)
      exact ⟨by simp [hnil], by simp [hnil]⟩

theorem singleFlight_step {s : AppState} (e : Event) (h : SingleFlight s) :
    SingleFlight (step s e) := by
  obtain ⟨h1, h2⟩ := h
  cases e with
  | timerFire t =>
    show SingleFlight (switchRecorders t s)
    unfold switchRecorders recorderStart
    cases s.activeRecorder <;>
      · dsimp only
        split
        · split <;> split <;> exact ⟨h1, h2⟩
        · exact ⟨h1, h2⟩
  | dataAvailable r sz =>
    show SingleFlight (handleDataAvailable r sz s)
    unfold handleDataAvailable
    split
    · cases r <;> exact ⟨h1, h2⟩
    · exact ⟨h1, h2⟩
  | recorderStopped r t =>
    simp only [step]
    split
    · unfold handleRecorderStop
      dsimp only
      split
      · cases r <;> exact singleFlight_processStart ⟨h1, h2⟩
      · exact ⟨h1, h2⟩
    · exact ⟨h1, h2⟩
  | drainTick => exact singleFlight_processStart ⟨h1, h2⟩
  | completion out =>
    simp only [step, completeInflight]
    split
    · exact ⟨h1, h2⟩
    · next seg rest heq =>
      have hrest : rest = [] := by
        rw [heq] at h1
        simpa using h1
      subst hrest
      exact ⟨by simp, by simp⟩
  | userStop =>
    show SingleFlight (userStopBegin s)
    unfold userStopBegin
    cases s.activeRecorder <;>
      · dsimp only
        split
        · split <;> exact ⟨h1, h2⟩
        · exact ⟨h1, h2⟩
  | teardown =>
    show SingleFlight (stopDualRecording s)
    unfold stopDualRecording
    dsimp only
    split <;> split <;> exact ⟨h1, h2⟩

theorem singleFlight_run (evs : List Event) : ∀ s, SingleFlight s → SingleFlight (run s evs) := by
  induction evs with
  | nil => intro s h; exact h
  | cons e evs ih => intro s h; exact ih _ (singleFlight_step e h)

/-- C2: in every state reachable during a continuous-recording session, at
most one `AudioSegment` is in flight (dequeued but not completed), and
`isProcessingSegment` is `true` exactly while such a segment exists — the
processing queue is single-flight. -/
theorem singleFlight_invariant (tags : String × String) (t0 : ℤ) (evs : List Event) :
    (run (startState tags t0) evs).inflightSegments.length ≤ 1 ∧
    ((run (startState tags t0) evs).isProcessingSegment = true ↔
      (run (startState tags t0) evs).inflightSegments ≠ []) :=
  singleFlight_run evs _
    ⟨by simp [startState, startContinuousRecording, initApp],
     by simp [startState, startContinuousRecording, initApp]⟩

/-! ## C3: dual-recorder slot invariant -/

theorem recState_congr {s t : AppState} (hp : t.primaryState = s.primaryState)
    (hs : t.secondaryState = s.secondaryState) : ∀ r, recState t r = recState s r := by
  intro r
  cases r <;> simp [recState, hp, hs]

theorem recorderInv_of_eq {s t : AppState}
    (hp : t.primaryState = s.primaryState) (hs : t.secondaryState = s.secondaryState)
    (ha : t.activeRecorder = s.activeRecorder) (hr : t.isRecording = s.isRecording)
    (hc : t.isContinuousMode = s.isContinuousMode) (h : RecorderInv s) : RecorderInv t := by
  obtain ⟨h1, h2⟩ := h
  constructor
  · rw [hp, hs]; exact h1
  · intro hr' hc'
    have h3 := h2 (by rw [← hr]; exact hr') (by rw [← hc]; exact hc')
    rw [ha, recState_congr hp hs, recState_congr hp hs]
    exact h3

theorem processStart_frame (s : AppState) :
    (processNextSegmentStart s).primaryState = s.primaryState ∧
    (processNextSegmentStart s).secondaryState = s.secondaryState ∧
    (processNextSegmentStart s).activeRecorder = s.activeRecorder ∧
    (processNextSegmentStart s).isRecording = s.isRecording ∧
    (processNextSegmentStart s).isContinuousMode = s.isContinuousMode := by
  unfold processNextSegmentStart
  split
  · exact ⟨rfl, rfl, rfl, rfl, rfl⟩
  · split
    · exact ⟨rfl, rfl, rfl, rfl, rfl⟩
    · exact ⟨rfl, rfl, rfl, rfl, rfl⟩

theorem applyCompletion_frame (seg : AudioSegment) (out : ProcOutcome) (s : AppState) :
    (applyCompletion seg out s).primaryState = s.primaryState ∧
    (applyCompletion seg out s).secondaryState = s.secondaryState ∧
    (applyCompletion seg out s).activeRecorder = s.activeRecorder ∧
    (applyCompletion seg out s).isRecording = s.isRecording ∧
    (applyCompletion seg out s).isContinuousMode = s.isContinuousMode := by
  unfold applyCompletion getPolishedNote
  dsimp only
  (repeat' split) <;> exact ⟨rfl, rfl, rfl, rfl, rfl⟩

theorem completeInflight_frame (out : ProcOutcome) (s : AppState) :
    (completeInflight out s).primaryState = s.primaryState ∧
    (completeInflight out s).secondaryState = s.secondaryState ∧
    (completeInflight out s).activeRecorder = s.activeRecorder ∧
    (completeInflight out s).isRecording = s.isRecording ∧
    (completeInflight out s).isContinuousMode = s.isContinuousMode := by
  unfold completeInflight
  dsimp only
  split
  · exact ⟨rfl, rfl, rfl, rfl, rfl⟩
  · next seg rest heq =>
    obtain ⟨f1, f2, f3, f4, f5⟩ := applyCompletion_frame seg out s
    exact ⟨f1, f2, f3, f4, f5⟩

theorem handleRecorderStop_frame (r : RecId) (t : ℤ) (s : AppState) :
    (handleRecorderStop r t s).primaryState = s.primaryState ∧
    (handleRecorderStop r t s).secondaryState = s.secondaryState ∧
    (handleRecorderStop r t s).activeRecorder = s.activeRecorder ∧
    (handleRecorderStop r t s).isRecording = s.isRecording ∧
    (handleRecorderStop r t s).isContinuousMode = s.isContinuousMode := by
  unfold handleRecorderStop
  dsimp only
  split
  · cases r <;> exact processStart_frame _
  · exact ⟨rfl, rfl, rfl, rfl, rfl⟩

theorem switchRecorders_effect (s : AppState) (t : ℤ)
    (hc : s.isContinuousMode = true) (hr : s.isRecording = true)
    (hact : recState s s.activeRecorder = RecState.recording)
    (hoth : recState s s.activeRecorder.other = RecState.inactive) :
    (switchRecorders t s).activeRecorder = s.activeRecorder.other ∧
    recState (switchRecorders t s) s.activeRecorder = RecState.inactive ∧
    recState (switchRecorders t s) s.activeRecorder.other = RecState.recording ∧
    (switchRecorders t s).pendingStops = s.pendingStops ++ [s.activeRecorder] := by
  cases hA : s.activeRecorder <;>
  · rw [hA] at hact hoth
    simp only [recState, RecId.other] at hact hoth
    simp [switchRecorders, recorderStart, setRecState, recState, RecId.other, hc, hr,
      hact, hoth, hA]

theorem recorderInv_step {s : AppState} (e : Event) (h : RecorderInv s) :
    RecorderInv (step s e) := by
  cases e with
  | timerFire t =>
    show RecorderInv (switchRecorders t s)
    by_cases hon : s.isContinuousMode = true ∧ s.isRecording = true
    · obtain ⟨hc, hr⟩ := hon
      obtain ⟨hact, hoth⟩ := h.2 hr hc
      cases hA : s.activeRecorder <;>
      · rw [hA] at hact hoth
        simp only [recState, RecId.other] at hact hoth
        simp [RecorderInv, switchRecorders, recorderStart, setRecState, recState, RecId.other,
          hc, hr, hact, hoth, hA]
    · unfold switchRecorders
      rw [if_neg hon]
      exact h
  | dataAvailable r sz =>
    show RecorderInv (handleDataAvailable r sz s)
    unfold handleDataAvailable
    split
    · cases r <;> exact recorderInv_of_eq rfl rfl rfl rfl rfl h
    · exact h
  | recorderStopped r t =>
    simp only [step]
    split
    · obtain ⟨f1, f2, f3, f4, f5⟩ := handleRecorderStop_frame r t
        { s with pendingStops := s.pendingStops.erase r }
      exact recorderInv_of_eq f1 f2 f3 f4 f5 h
    · exact h
  | drainTick =>
    obtain ⟨f1, f2, f3, f4, f5⟩ := processStart_frame s
    exact recorderInv_of_eq f1 f2 f3 f4 f5 h
  | completion out =>
    obtain ⟨f1, f2, f3, f4, f5⟩ := completeInflight_frame out s
    exact recorderInv_of_eq f1 f2 f3 f4 f5 h
  | userStop =>
    show RecorderInv (userStopBegin s)
    unfold userStopBegin
    cases s.activeRecorder <;>
    · dsimp only
      split
      · split
        · constructor
          · simp [setRecState]
          · intro _ hc'
            simp [setRecState] at hc'
        · constructor
          · exact h.1
          · intro _ hc'
            simp at hc'
      · constructor
        · exact h.1
        · intro hr' _
          simp at hr'
          exact absurd hr' (by assumption)
  | teardown =>
    show RecorderInv (stopDualRecording s)
    unfold stopDualRecording
    dsimp only
    split <;> split <;>
      exact ⟨by rintro ⟨hp, hq⟩; simp_all, by intro hr' _; simp at hr'⟩

theorem recorderInv_run (evs : List Event) : ∀ s, RecorderInv s → RecorderInv (run s evs) := by
  induction evs with
  | nil => intro s h; exact h
  | cons e evs ih => intro s h; exact ih _ (recorderInv_step e h)

theorem recorderInv_startState (tags : String × String) (t0 : ℤ) :
    RecorderInv (startState tags t0) := by
  constructor
  · simp [startState, startContinuousRecording, initApp]
  · intro _ _
    simp [startState, startContinuousRecording, initApp, recState, RecId.other]

/-- C3: in every reachable session state the two recorders are never both
capturing; while recording is logically on (`isRecording ∧
isContinuousMode`) the active slot is capturing and the other is idle (so
exactly one captures, never zero); and a segment-timer fire in such a state
stops the active recorder (requesting its flush) and starts the other slot
within the same synchronous step. -/
theorem recorderSlots_invariant (tags : String × String) (t0 : ℤ) (evs : List Event) :
    ¬((run (startState tags t0) evs).primaryState = RecState.recording ∧
        (run (startState tags t0) evs).secondaryState = RecState.recording) ∧
    ((run (startState tags t0) evs).isRecording = true →
      (run (startState tags t0) evs).isContinuousMode = true →
      recState (run (startState tags t0) evs) (run (startState tags t0) evs).activeRecorder
          = RecState.recording ∧
        recState (run (startState tags t0) evs)
            (run (startState tags t0) evs).activeRecorder.other = RecState.inactive) ∧
    (∀ t : ℤ, (run (startState tags t0) evs).isRecording = true →
      (run (startState tags t0) evs).isContinuousMode = true →
      (step (run (startState tags t0) evs) (.timerFire t)).activeRecorder
          = (run (startState tags t0) evs).activeRecorder.other ∧
        recState (step (run (startState tags t0) evs) (.timerFire t))
            (run (startState tags t0) evs).activeRecorder = RecState.inactive ∧
        recState (step (run (startState tags t0) evs) (.timerFire t))
            (run (startState tags t0) evs).activeRecorder.other = RecState.recording ∧
        (step (run (startState tags t0) evs) (.timerFire t)).pendingStops
          = (run (startState tags t0) evs).pendingStops ++
              [(run (startState tags t0) evs).activeRecorder]) := by
  have hinv := recorderInv_run evs _ (recorderInv_startState tags t0)
  refine ⟨hinv.1, hinv.2, ?_⟩
  intro t hr hc
  obtain ⟨hact, hoth⟩ := hinv.2 hr hc
  exact switchRecorders_effect _ t hc hr hact hoth

/-- Witness for C3: in the freshly started session (recording on,
primary capturing) a timer fire at time 5 switches to the secondary slot in
one step. -/
theorem recorderSlots_invariant_witness :
    (step (run (startState ("", "") 0) []) (.timerFire 5)).activeRecorder
        = (run (startState ("", "") 0) []).activeRecorder.other ∧
      recState (step (run (startState ("", "") 0) []) (.timerFire 5))
          (run (startState ("", "") 0) []).activeRecorder = RecState.inactive ∧
      recState (step (run (startState ("", "") 0) []) (.timerFire 5))
          (run (startState ("", "") 0) []).activeRecorder.other = RecState.recording ∧
      (step (run (startState ("", "") 0) []) (.timerFire 5)).pendingStops
        = (run (startState ("", "") 0) []).pendingStops ++
            [(run (startState ("", "") 0) []).activeRecorder] :=
  (recorderSlots_invariant ("", "") 0 []).2.2 5 rfl rfl

/-! ## C4 and C5: WAV encoder layout and sample quantization -/

theorem i16le_length (i : ℤ) : (i16le i).length = 2 := rfl

theorem wavHeaderSpec_length (c r d : ℕ) : (wavHeaderSpec c r d).length = 44 := rfl

theorem convertToWav_split (sampleRate numSamples : ℕ) (cd : List (List ℚ)) :
    convertToWav sampleRate numSamples cd =
      wavHeaderSpec cd.length sampleRate ((interleave cd numSamples).length * 2) ++
        (interleave cd numSamples).flatMap (fun x => i16le (quantizeSample x)) := by
  simp only [convertToWav, wavHeaderSpec, List.append_assoc]

theorem interleave_length (cd : List (List ℚ)) (n : ℕ) :
    (interleave cd n).length = n * cd.length := by
  simp [interleave, List.length_flatMap, Function.comp_def, List.map_const', List.sum_const_nat]

theorem interleave_flatMap (cd : List (List ℚ)) (n : ℕ) (f : ℚ → List ℕ) :
    (interleave cd n).flatMap f =
      (List.range n).flatMap fun i => cd.flatMap fun ch => f (ch.getD i 0) := by
  rw [interleave, List.flatMap_assoc]
  simp only [List.flatMap_map]

theorem flatMap_i16le_length {α : Type} (l : List α) (g : α → ℤ) :
    (l.flatMap fun x => i16le (g x)).length = 2 * l.length := by
  simp [List.length_flatMap, Function.comp_def, i16le_length, List.map_const', List.sum_const_nat]
  omega

theorem flatMap_drop_mul {α β : Type} (f : α → List β) (m : ℕ)
    (hf : ∀ x, (f x).length = m) (d : α) :
    ∀ (l : List α) (k : ℕ), k < l.length →
      (l.flatMap f).drop (k * m) = f (l.getD k d) ++ (l.drop (k + 1)).flatMap f := by
  intro l
  induction l with
  | nil => intro k hk; simp at hk
  | cons x xs ih =>
    intro k hk
    cases k with
    | zero => simp
    | succ k =>
      have hm : (k + 1) * m = (f x).length + k * m := by rw [hf x]; ring
      rw [List.flatMap_cons, hm, List.drop_append]
      exact ih k (by simpa using hk)

/-- C4: the encoder output is the 44-byte header — RIFF chunk size
`36 + 2·S·C`, format tag 1 (PCM), `C` channels, the sample rate, byte rate
`R·C·2`, block align `C·2`, 16 bits per sample, data chunk size `2·S·C`,
all little-endian — followed by the 16-bit PCM payload in frame-major
order (for each frame index, every channel's quantized sample is emitted
before advancing), for a total of `44 + 2·S·C` bytes. -/
theorem convertToWav_layout (sampleRate numSamples : ℕ) (channelData : List (List ℚ))
    (hlen : ∀ ch ∈ channelData, ch.length = numSamples) :
    (convertToWav sampleRate numSamples channelData).length
        = 44 + 2 * numSamples * channelData.length ∧
    (convertToWav sampleRate numSamples channelData).take 44
        = wavHeaderSpec channelData.length sampleRate (2 * numSamples * channelData.length) ∧
    (convertToWav sampleRate numSamples channelData).drop 44
        = (List.range numSamples).flatMap fun i =>
            channelData.flatMap fun ch => i16le (quantizeSample (ch.getD i 0)) := by
  have h44 : (wavHeaderSpec channelData.length sampleRate
      ((interleave channelData numSamples).length * 2)).length = 44 :=
    wavHeaderSpec_length _ _ _
  refine ⟨?_, ?_, ?_⟩
  · rw [convertToWav_split, List.length_append, h44, flatMap_i16le_length, interleave_length]
    ring
  · rw [convertToWav_split, ← h44, List.take_left, interleave_length]
    congr 1
    ring
  · rw [convertToWav_split, ← h44, List.drop_left, interleave_flatMap]

/-- Witness for C4 on a concrete stereo input (2 channels × 2 frames at
8000 Hz). -/
theorem convertToWav_layout_witness :
    (convertToWav 8000 2 [[1, 0], [0, 1]]).length = 44 + 2 * 2 * 2 ∧
    (convertToWav 8000 2 [[1, 0], [0, 1]]).take 44
        = wavHeaderSpec 2 8000 (2 * 2 * 2) ∧
    (convertToWav 8000 2 [[1, 0], [0, 1]]).drop 44
        = (List.range 2).flatMap fun i =>
            [[(1 : ℚ), 0], [0, 1]].flatMap fun ch => i16le (quantizeSample (ch.getD i 0)) := by
  have h := convertToWav_layout 8000 2 [[1, 0], [0, 1]] (by decide)
  simpa using h

theorem quantizeSample_spec (s : ℚ) :
    quantizeSample s =
      ratTrunc (if max (-1) (min 1 s) < 0 then max (-1) (min 1 s) * 32768
        else max (-1) (min 1 s) * 32767) := rfl

/-- C5: the two bytes stored for frame `i` of channel `ch` are the
little-endian signed-16-bit encoding of the sample clamped to `[-1, 1]`
first and then scaled asymmetrically — by 32768 when the clamped value is
negative and by 32767 otherwise — truncated toward zero. -/
theorem sample_quantization (sampleRate numSamples : ℕ) (channelData : List (List ℚ))
    (i ch : ℕ) (hi : i < numSamples) (hch : ch < channelData.length) :
    ((convertToWav sampleRate numSamples channelData).drop
        (44 + 2 * (i * channelData.length + ch))).take 2
      = i16le (ratTrunc
          (if max (-1) (min 1 ((channelData.getD ch []).getD i 0)) < 0 then
            max (-1) (min 1 ((channelData.getD ch []).getD i 0)) * 32768
          else max (-1) (min 1 ((channelData.getD ch []).getD i 0)) * 32767)) := by
  rw [← quantizeSample_spec]
  have h44 : (wavHeaderSpec channelData.length sampleRate
      ((interleave channelData numSamples).length * 2)).length = 44 :=
    wavHeaderSpec_length _ _ _
  have hframe : ∀ j : ℕ,
      ((channelData.flatMap fun c => i16le (quantizeSample (c.getD j 0))).length)
        = 2 * channelData.length := fun j => flatMap_i16le_length channelData _
  rw [show 44 + 2 * (i * channelData.length + ch)
      = 44 + (i * (2 * channelData.length) + ch * 2) by ring]
  rw [← List.drop_drop, convertToWav_split, ← h44, List.drop_left, interleave_flatMap,
    ← List.drop_drop]
  rw [flatMap_drop_mul _ (2 * channelData.length) (fun j => hframe j) 0
    (List.range numSamples) i (by simpa using hi)]
  rw [List.getD_eq_getElem _ _ (by simpa using hi), List.getElem_range]
  rw [List.drop_append_of_le_length (by rw [hframe i]; omega)]
  rw [flatMap_drop_mul _ 2 (fun x => i16le_length _) ([] : List ℚ) channelData ch hch]
  rw [List.append_assoc]
  rw [show (2 : ℕ)
      = (i16le (quantizeSample ((channelData.getD ch []).getD i 0))).length from rfl]
  rw [List.take_left]

/-- Witness for C5: channel 0, frame 1 of a concrete stereo buffer holds
`-1/2`; its bytes are the little-endian encoding of `-16384 = -1/2 · 32768`. -/
theorem sample_quantization_witness :
    ((convertToWav 8000 2 [[1, -1/2], [0, 1]]).drop (44 + 2 * (1 * 2 + 0))).take 2
        = i16le (ratTrunc (if max (-1) (min 1 (-1/2 : ℚ)) < 0 then
            max (-1) (min 1 (-1/2 : ℚ)) * 32768 else max (-1) (min 1 (-1/2 : ℚ)) * 32767)) ∧
    i16le (ratTrunc (if max (-1) (min 1 (-1/2 : ℚ)) < 0 then
        max (-1) (min 1 (-1/2 : ℚ)) * 32768 else max (-1) (min 1 (-1/2 : ℚ)) * 32767))
      = [0, 192] := by
  constructor
  · have h := sample_quantization 8000 2 [[1, -1/2], [0, 1]] 1 0 (by decide) (by decide)
    simpa using h
  · with_unfolding_all decide

/-! ## C1: segment emission count and numbering -/

theorem jsTrim_with_header_ne (a : String) (n : ℕ) (rest : String) :
    jsTrim (a ++ (segmentHeader n ++ rest)) ≠ "" := by
  apply jsTrim_append_ne_empty (c := 'S')
  · rw [String.data_append]
    apply List.mem_append_left
    rw [segmentHeader, String.data_append, String.data_append]
    exact List.mem_append_left _ (List.mem_append_left _ (by decide))
  · decide

theorem rotation_run (tags : String × String) (r : RecId) (count : ℕ)
    (acc pol : String) (title : Option String) (log : List AudioSegment)
    (plog : List String) (t t1 t2 : ℤ) (sz : ℕ) (text : String) (refined : Option String)
    (hsz : 0 < sz) (hcount : 1 ≤ count) (htext : text ≠ "") :
    run (mkLiveState tags r count acc pol title log plog t)
        (rotationEvents r t1 t2 sz (.transcribed text refined)) =
      mkLiveState tags r.other (count + 1)
        (acc ++ (segmentHeader (count + 1) ++ addAudioTags tags.1 tags.2 (jsTrim text)))
        (match refined with
         | some p => if p ≠ "" then p else pol
         | none => pol)
        title
        (log ++ [⟨sz, t1, t2, count + 1⟩])
        (plog ++ [polishPromptPre ++
          (acc ++ (segmentHeader (count + 1) ++ addAudioTags tags.1 tags.2 (jsTrim text)))])
        t1 := by
  have hguard := jsTrim_with_header_ne acc (count + 1) (addAudioTags tags.1 tags.2 (jsTrim text))
  have hsz' : ¬(sz = 0) := by omega
  have hcount' : ¬(count + 1 = 1) := by omega
  cases r <;> cases refined with
  | none =>
    simp [run, rotationEvents, step, switchRecorders, recorderStart, setRecState, recState,
      RecId.other, handleDataAvailable, setChunks, chunksOf, handleRecorderStop,
      processNextSegmentStart, completeInflight, applyCompletion, getPolishedNote,
      mkLiveState, hsz, hsz', htext, hguard, hcount']
  | some p =>
    by_cases hp : p = "" <;>
      simp [run, rotationEvents, step, switchRecorders, recorderStart, setRecState, recState,
        RecId.other, handleDataAvailable, setChunks, chunksOf, handleRecorderStop,
        processNextSegmentStart, completeInflight, applyCompletion, getPolishedNote,
        mkLiveState, hsz, hsz', htext, hguard, hcount', hp]

theorem run_append (s : AppState) (a b : List Event) :
    run s (a ++ b) = run (run s a) b :=
  List.foldl_append step s a b

theorem run_rotations (tags : String × String) (sz : ℕ) (text : String)
    (hsz : 0 < sz) (htext : text ≠ "") (n : ℕ) :
    run (startState tags 0) (sessionRotations n sz text) =
      mkLiveState tags (activeAfter n) (n + 1) (accAfterSeg tags text n) ""
        none (segLogAfter sz n) (promptsAfter tags text n) 0 := by
  induction n with
  | zero => rfl
  | succ n ih =>
    rw [sessionRotations, List.range_succ, List.flatMap_append, run_append,
      ← sessionRotations, ih]
    simpa [accAfterSeg, segLogAfter, promptsAfter, activeAfter] using
      rotation_run tags (activeAfter n) (n + 1) (accAfterSeg tags text n) ""
        none (segLogAfter sz n) (promptsAfter tags text n) 0 0 0 sz text none
        hsz (by omega) htext

theorem final_run (tags : String × String) (r : RecId) (count : ℕ)
    (acc pol : String) (title : Option String) (log : List AudioSegment)
    (plog : List String) (t : ℤ) (sz : ℕ) (text : String)
    (hsz : 0 < sz) (hcount : 1 ≤ count) (htext : text ≠ "") :
    run (mkLiveState tags r count acc pol title log plog t) (finalEvents r sz text) =
      { isRecording := false
        isContinuousMode := false
        activeRecorder := r
        primaryState := .inactive
        secondaryState := .inactive
        primaryAudioChunks := []
        secondaryAudioChunks := []
        pendingStops := []
        segmentStartTime := t
        segmentCount := count + 1
        openingTags := tags.1
        closingTags := tags.2
        accumulatedTranscription :=
          acc ++ (segmentHeader (count + 1) ++ addAudioTags tags.1 tags.2 (jsTrim text))
        accumulatedPolishedNote := pol
        processingQueue := []
        isProcessingSegment := false
        inflightSegments := []
        editorTitle := title
        enqueuedLog := log ++ [⟨sz, t, 0, count + 1⟩]
        refinementPromptLog := plog ++ [polishPromptPre ++
          (acc ++ (segmentHeader (count + 1) ++ addAudioTags tags.1 tags.2 (jsTrim text)))] } := by
  have hguard := jsTrim_with_header_ne acc (count + 1) (addAudioTags tags.1 tags.2 (jsTrim text))
  have hsz' : ¬(sz = 0) := by omega
  have hcount' : ¬(count + 1 = 1) := by omega
  cases r <;>
    simp [run, finalEvents, step, userStopBegin, stopDualRecording, setRecState, recState,
      RecId.other, handleDataAvailable, setChunks, chunksOf, handleRecorderStop,
      processNextSegmentStart, completeInflight, applyCompletion, getPolishedNote,
      mkLiveState, hsz, hsz', htext, hguard, hcount']

theorem segLogAfter_map (sz : ℕ) :
    ∀ n, (segLogAfter sz n).map AudioSegment.segmentNumber = List.range' 2 n := by
  intro n
  induction n with
  | zero => rfl
  | succ n ih =>
    rw [segLogAfter, List.map_append, ih, List.range'_concat]
    simp
    omega

/-- C1 (amended): in a clean session with `n` timer intervals in which every
stop flushes non-empty data and every segment's transcription completes
before the next flush, exactly `n + 1` segments are enqueued, and their
`segmentNumber`s are strictly increasing starting at 2 (they are
`2, 3, …, n + 2`). -/
theorem segment_numbers_amended (tags : String × String) (n sz : ℕ) (text : String)
    (hsz : 0 < sz) (htext : text ≠ "") :
    (run (startState tags 0) (sessionEvents n sz text)).enqueuedLog.length = n + 1 ∧
    (run (startState tags 0) (sessionEvents n sz text)).enqueuedLog.map
        AudioSegment.segmentNumber = List.range' 2 (n + 1) ∧
    List.Chain' (· < ·) ((run (startState tags 0) (sessionEvents n sz text)).enqueuedLog.map
        AudioSegment.segmentNumber) ∧
    ((run (startState tags 0) (sessionEvents n sz text)).enqueuedLog.map
        AudioSegment.segmentNumber).head? = some 2 := by
  have hrun : (run (startState tags 0) (sessionEvents n sz text)).enqueuedLog
      = segLogAfter sz n ++ [⟨sz, 0, 0, n + 2⟩] := by
    rw [sessionEvents, run_append, run_rotations tags sz text hsz htext n,
      final_run tags (activeAfter n) (n + 1) (accAfterSeg tags text n) ""
        none (segLogAfter sz n) (promptsAfter tags text n) 0 sz text hsz (by omega) htext]
  have hmap : (run (startState tags 0) (sessionEvents n sz text)).enqueuedLog.map
      AudioSegment.segmentNumber = List.range' 2 (n + 1) := by
    rw [hrun, List.map_append, segLogAfter_map, List.range'_concat]
    simp
    omega
  refine ⟨?_, hmap, ?_, ?_⟩
  · have := congrArg List.length hmap
    simpa using this
  · rw [hmap]
    exact (List.pairwise_lt_range' 2 (n + 1)).chain'
  · rw [hmap]
    rfl

/-- Witness for C1 (amended) at one interval: segments 2 and 3 are
enqueued. -/
theorem segment_numbers_amended_witness :
    (run (startState ("", "") 0) (sessionEvents 1 1 "ola")).enqueuedLog.length = 1 + 1 ∧
    (run (startState ("", "") 0) (sessionEvents 1 1 "ola")).enqueuedLog.map
        AudioSegment.segmentNumber = List.range' 2 (1 + 1) ∧
    List.Chain' (· < ·) ((run (startState ("", "") 0) (sessionEvents 1 1 "ola")).enqueuedLog.map
        AudioSegment.segmentNumber) ∧
    ((run (startState ("", "") 0) (sessionEvents 1 1 "ola")).enqueuedLog.map
        AudioSegment.segmentNumber).head? = some 2 :=
  segment_numbers_amended ("", "") 1 1 "ola" (by decide) (by decide)

/-- Counterexample to C1 as stated: in this run one timer interval elapses
(`N = 1`) and both recorder stops flush non-empty data, so the claim
predicts segment numbers `1, 2`; the code enqueues two segments both
numbered 2 — the numbering neither starts at 1 nor is strictly
increasing. -/
theorem segment_numbers_cex :
    (run (startState ("", "") 0) delayedSessionEvents).enqueuedLog.map
        AudioSegment.segmentNumber = [2, 2] ∧
    ¬ List.Chain' (· < ·) ((run (startState ("", "") 0) delayedSessionEvents).enqueuedLog.map
        AudioSegment.segmentNumber) ∧
    ((run (startState ("", "") 0) delayedSessionEvents).enqueuedLog.map
        AudioSegment.segmentNumber).head? ≠ some 1 := by
  have h1 : (run (startState ("", "") 0) delayedSessionEvents).enqueuedLog.map
      AudioSegment.segmentNumber = [2, 2] := by decide
  refine ⟨h1, ?_, ?_⟩
  · rw [h1]
    simp [List.chain'_cons]
  · rw [h1]
    decide

/-! ## C6: a failing segment does not stop the queue -/

theorem run_cons (s : AppState) (e : Event) (evs : List Event) :
    run s (e :: evs) = run (step s e) evs := rfl

theorem getPolishedNote_acc (refined : Option String) (s : AppState) :
    (getPolishedNote refined s).accumulatedTranscription = s.accumulatedTranscription := by
  unfold getPolishedNote
  dsimp only
  (repeat' split) <;> rfl

theorem applyCompletion_acc (seg : AudioSegment) (out : ProcOutcome) (s : AppState) :
    (applyCompletion seg out s).accumulatedTranscription =
      s.accumulatedTranscription ++
        (match out with
         | .procError => ""
         | .transcribed text _ =>
           if seg.blobSize ≠ 0 ∧ text ≠ "" then
             segmentHeader seg.segmentNumber ++
               addAudioTags s.openingTags s.closingTags (jsTrim text)
           else "") := by
  cases out with
  | procError => simp [applyCompletion]
  | transcribed text refined =>
    by_cases hb : seg.blobSize = 0
    · simp [applyCompletion, hb]
    · by_cases ht : text = ""
      · simp [applyCompletion, hb, ht]
      · simp [applyCompletion, hb, ht, getPolishedNote_acc]

theorem applyCompletion_frame2 (seg : AudioSegment) (out : ProcOutcome) (s : AppState) :
    (applyCompletion seg out s).processingQueue = s.processingQueue ∧
    (applyCompletion seg out s).openingTags = s.openingTags ∧
    (applyCompletion seg out s).closingTags = s.closingTags := by
  unfold applyCompletion getPolishedNote
  dsimp only
  (repeat' split) <;> exact ⟨rfl, rfl, rfl⟩

/-- C6: per-segment failures are caught at the queue boundary: draining a
queue of segments against any list of per-segment environment outcomes
appends to the raw transcript exactly the blocks of the successfully
transcribed segments, in queue order, with each failed segment's content
absent — segments after a failed one are still processed and their blocks
still appear. -/
theorem queue_failure_isolation (outs : List ProcOutcome) :
    ∀ (segs : List AudioSegment) (s : AppState),
      s.isProcessingSegment = false → s.inflightSegments = [] →
      s.processingQueue = segs →
      (run s (drainEvents outs)).accumulatedTranscription =
        s.accumulatedTranscription ++
          successBlocks s.openingTags s.closingTags (segs.zip outs) := by
  induction outs with
  | nil =>
    intro segs s _ _ _
    simp [drainEvents, run, successBlocks, String.append_empty]
  | cons o outs ih =>
    intro segs s hg hi hq
    have hde : drainEvents (o :: outs) = .drainTick :: .completion o :: drainEvents outs := rfl
    cases segs with
    | nil =>
      have h1 : step s .drainTick = s := by
        simp [step, processNextSegmentStart, hq]
      have h2 : step s (.completion o) = s := by
        simp [step, completeInflight, hi]
      rw [hde, run_cons, run_cons, h1, h2, ih [] s hg hi hq]
      rfl
    | cons seg rest =>
      have h1 : step s .drainTick = { s with isProcessingSegment := true, processingQueue := rest, inflightSegments := [seg] } := by
        simp [step, processNextSegmentStart, hq, hg, hi]
      have h2 : step { s with isProcessingSegment := true, processingQueue := rest, inflightSegments := [seg] } (.completion o) = { (applyCompletion seg o { s with isProcessingSegment := true, processingQueue := rest, inflightSegments := [seg] }) with isProcessingSegment := false, inflightSegments := [] } := by
        simp [step, completeInflight]
      obtain ⟨hqf, hop, hcl⟩ := applyCompletion_frame2 seg o
        { s with isProcessingSegment := true, processingQueue := rest, inflightSegments := [seg] }
      rw [hde, run_cons, run_cons, h1, h2,
        ih rest _ rfl rfl (by dsimp only; rw [hqf])]
      dsimp only
      rw [applyCompletion_acc, hop, hcl]
      cases o with
      | procError => simp [successBlocks, String.append_assoc, List.zip]
      | transcribed text refined =>
        by_cases hc : seg.blobSize ≠ 0 ∧ text ≠ "" <;>
          simp [successBlocks, hc, String.append_assoc, List.zip]

/-- Witness for C6: three queued segments whose middle one fails — the final
transcript holds segment 1's block then segment 3's, with segment 2
absent. -/
theorem queue_failure_isolation_witness :
    (run { startState ("", "") 0 with
          processingQueue := [⟨1, 0, 0, 1⟩, ⟨1, 0, 0, 2⟩, ⟨1, 0, 0, 3⟩] }
        (drainEvents [.transcribed "um" none, .procError,
          .transcribed "tres" none])).accumulatedTranscription
      = "" ++ successBlocks "" ""
          ([⟨1, 0, 0, 1⟩, ⟨1, 0, 0, 2⟩, ⟨1, 0, 0, 3⟩].zip
            [.transcribed "um" none, .procError, .transcribed "tres" none]) ∧
    successBlocks "" ""
        ([(⟨1, 0, 0, 1⟩ : AudioSegment), ⟨1, 0, 0, 2⟩, ⟨1, 0, 0, 3⟩].zip
          [.transcribed "um" none, .procError, .transcribed "tres" none])
      = "\n\n=== SEGMENTO 1 ===\num\n\n=== SEGMENTO 3 ===\ntres" := by
  constructor
  · exact queue_failure_isolation _ _ _ rfl rfl rfl
  · decide

/-! ## C9: one block per success; refinement over the whole transcript; polished note replaced -/

/-- C9: when the in-flight segment's transcription succeeds, exactly one
segment-delimited block is appended to the accumulated raw transcription;
the refinement request is then issued with a prompt embedding the *entire*
accumulated transcription (every block so far, not just the new one); and a
successful refinement *replaces* the polished note wholesale. -/
theorem success_block_and_refinement (s : AppState) (seg : AudioSegment)
    (rest : List AudioSegment) (text : String) (refined : Option String)
    (hin : s.inflightSegments = seg :: rest) (hsz : seg.blobSize ≠ 0) (ht : text ≠ "") :
    (step s (.completion (.transcribed text refined))).accumulatedTranscription
        = s.accumulatedTranscription ++
          (segmentHeader seg.segmentNumber ++
            addAudioTags s.openingTags s.closingTags (jsTrim text)) ∧
    (step s (.completion (.transcribed text refined))).refinementPromptLog
        = s.refinementPromptLog ++ [polishPromptPre ++
            (s.accumulatedTranscription ++
              (segmentHeader seg.segmentNumber ++
                addAudioTags s.openingTags s.closingTags (jsTrim text)))] ∧
    (∀ p, refined = some p → p ≠ "" →
      (step s (.completion (.transcribed text refined))).accumulatedPolishedNote = p) := by
  have hguard := jsTrim_with_header_ne s.accumulatedTranscription seg.segmentNumber
    (addAudioTags s.openingTags s.closingTags (jsTrim text))
  have hstep : step s (.completion (.transcribed text refined))
      = { (applyCompletion seg (.transcribed text refined) s) with
          isProcessingSegment := false, inflightSegments := rest } := by
    simp [step, completeInflight, hin]
  rw [hstep]
  cases refined with
  | none =>
    refine ⟨?_, ?_, ?_⟩
    · dsimp only
      simp [applyCompletion, getPolishedNote, hsz, ht, hguard]
    · dsimp only
      simp [applyCompletion, getPolishedNote, hsz, ht, hguard]
    · intro p hp
      exact absurd hp (by simp)
  | some q =>
    by_cases hqe : q = ""
    · refine ⟨?_, ?_, ?_⟩
      · dsimp only
        simp [applyCompletion, getPolishedNote, hsz, ht, hguard, hqe]
      · dsimp only
        simp [applyCompletion, getPolishedNote, hsz, ht, hguard, hqe]
      · intro p hp hpne
        rw [hqe] at hp
        simp at hp
        exact absurd hp.symm hpne
    · by_cases hsc : max s.segmentCount seg.segmentNumber = 1 <;>
      · refine ⟨?_, ?_, ?_⟩
        · dsimp only
          simp [applyCompletion, getPolishedNote, hsz, ht, hguard, hqe, hsc]
        · dsimp only
          simp [applyCompletion, getPolishedNote, hsz, ht, hguard, hqe, hsc]
        · intro p hp _
          simp at hp
          subst hp
          dsimp only
          simp [applyCompletion, getPolishedNote, hsz, ht, hguard, hqe, hsc]

/-- Witness for C9: a state with one in-flight segment (number 2), whose
transcription succeeds with text `"ola"` and whose refinement returns
`"Nota polida"`. -/
theorem success_block_and_refinement_witness :
    (step { startState ("", "") 0 with isProcessingSegment := true, inflightSegments := [⟨1, 0, 0, 2⟩] }
        (.completion (.transcribed "ola" (some "Nota polida")))).accumulatedTranscription
      = "" ++ (segmentHeader 2 ++ addAudioTags "" "" (jsTrim "ola")) ∧
    (step { startState ("", "") 0 with isProcessingSegment := true, inflightSegments := [⟨1, 0, 0, 2⟩] }
        (.completion (.transcribed "ola" (some "Nota polida")))).refinementPromptLog
      = [] ++ [polishPromptPre ++ ("" ++ (segmentHeader 2 ++ addAudioTags "" "" (jsTrim "ola")))] ∧
    (step { startState ("", "") 0 with isProcessingSegment := true, inflightSegments := [⟨1, 0, 0, 2⟩] }
        (.completion (.transcribed "ola" (some "Nota polida")))).accumulatedPolishedNote
      = "Nota polida" := by
  have h := success_block_and_refinement
    { startState ("", "") 0 with isProcessingSegment := true, inflightSegments := [⟨1, 0, 0, 2⟩] }
    ⟨1, 0, 0, 2⟩ [] "ola" (some "Nota polida") rfl (by decide) (by decide)
  exact ⟨h.1, h.2.1, h.2.2 "Nota polida" rfl (by decide)⟩

/-! ## C8: title derivation is unreachable in a continuous session -/

/-- C8 (code bug): in a continuous session the first emitted segment is
numbered 2, so after its successful transcription `segmentCount` is 2 and
the `segmentCount === 1` check in `getPolishedNote` never fires: even
though the first refinement succeeds (the polished note is replaced and
`updateNoteTitle` would derive the title "Weekly Sync" from it), no title
is ever derived — the editor title stays on its placeholder. -/
theorem title_derivation_unreachable :
    (run (startState ("", "") 0) (rotationEvents .primary 0 0 1
        (.transcribed "Ola equipa" (some "# Weekly Sync\n\nDiscussed budget.")))).accumulatedPolishedNote
      = "# Weekly Sync\n\nDiscussed budget." ∧
    (run (startState ("", "") 0) (rotationEvents .primary 0 0 1
        (.transcribed "Ola equipa" (some "# Weekly Sync\n\nDiscussed budget.")))).segmentCount
      = 2 ∧
    (run (startState ("", "") 0) (rotationEvents .primary 0 0 1
        (.transcribed "Ola equipa" (some "# Weekly Sync\n\nDiscussed budget.")))).editorTitle
      = none ∧
    updateNoteTitle "# Weekly Sync\n\nDiscussed budget." = some "Weekly Sync" := by
  refine ⟨?_, ?_, ?_, ?_⟩ <;> decide

end VoiceNotes
